import Mathlib

/-!
Verification of the gfapy redundant-linear-path simplification core.

This file gives a shallow embedding of the three source files

  * gfapy/segment_end.py                       (the SegmentEnd class)
  * gfapy/field/identifier_list_gfa2.py        (GFA2 identifier-list codec)
  * gfapy/graph_operations/redundant_linear_paths.py

and proves or refutes the behavioural claims about them.  Python strings
are modelled as lists of characters, Python exceptions as an error type,
dynamic values (tag payloads, list elements) as an inductive `PyVal`.
The infinite `__getattr__` delegation of `SegmentEnd` is modelled by an
explicit recursion-depth parameter (Python's recursion limit): the result
is `RecursionError` at every depth.
-/

/-- Python strings, modelled as lists of characters. -/
abbrev PyStr := List Char

/-- Conversion from a Lean string literal to the `PyStr` model. -/
def ps (s : String) : PyStr := s.toList

/-- The Python exceptions raised by the embedded code (gfapy error classes
are subclasses of the corresponding builtins). -/
inductive PyErr where
  | formatError
  | typeError
  | valueError
  | keyError
  | indexError
  | nameError
  | attributeError
  | recursionError
  | assertionError
  | notFoundError
deriving DecidableEq

/-- Python `str(n)` for a natural number. -/
def natStr (n : Nat) : PyStr := (toString n).toList

/-- Python `str(i)` for an integer. -/
def intStr (i : Int) : PyStr := (toString i).toList

/-- Dynamic Python values as they occur in tag payloads and field values:
`None`, strings, ints, lists, dicts with string keys, and gfapy line
objects (represented by their id, the only attribute the sources read). -/
inductive PyVal where
  | pnone
  | pstr (s : PyStr)
  | pint (n : Int)
  | plist (l : List PyVal)
  | pdict (d : List (PyStr × PyVal))
  | pline (id : PyStr)

/-- Python truthiness for the modelled values. -/
def pyTruthy : PyVal → Bool
  | .pnone => false
  | .pstr s => !s.isEmpty
  | .pint n => n != 0
  | .plist l => !l.isEmpty
  | .pdict d => !d.isEmpty
  | .pline _ => true

/-- First-match lookup in a dict's entry list. -/
def dictFind : List (PyStr × PyVal) → PyStr → Option PyVal
  | [], _ => none
  | (k0, v0) :: rest, k => if k0 = k then some v0 else dictFind rest k

/-- Python subscription `v[k]` with a string key: succeeds only on a dict
holding the key (`KeyError` otherwise); on any other value it is a
`TypeError` (list indices must be integers, strings are not subscriptable
by strings, etc.). -/
def PyVal.getItem : PyVal → PyStr → Except PyErr PyVal
  | .pdict d, k =>
    match dictFind d k with
    | some v => .ok v
    | none => .error PyErr.keyError
  | _, _ => .error PyErr.typeError

/-- In-place update `d[k] = v` of a dict value (replaces the first entry
with the key, appends if absent). Non-dicts are returned unchanged; the
embedding only applies this after a successful `getItem` on the same key. -/
def dictStore : List (PyStr × PyVal) → PyStr → PyVal → List (PyStr × PyVal)
  | [], k, v => [(k, v)]
  | (k0, v0) :: rest, k, v =>
    if k0 = k then (k, v) :: rest else (k0, v0) :: dictStore rest k v

/-- `v[k] = x` on the modelled values. -/
def PyVal.setItem : PyVal → PyStr → PyVal → PyVal
  | .pdict d, k, x => .pdict (dictStore d k x)
  | v, _, _ => v

/-- Python `v.items()`: a dict method; on a list (or any other value) the
attribute does not exist and Python raises `AttributeError`. -/
def PyVal.items : PyVal → Except PyErr (List (PyStr × PyVal))
  | .pdict d => .ok d
  | _ => .error PyErr.attributeError

/-- Python `v.append(x)`: a list method; any other receiver raises
`AttributeError`. -/
def PyVal.appendItem : PyVal → PyVal → Except PyErr PyVal
  | .plist l, x => .ok (.plist (l ++ [x]))
  | _, _ => .error PyErr.attributeError

/-- Python `v == s` for a string literal `s`: equal strings compare equal,
a value of any other type compares unequal (no exception). -/
def pyEqStr (v : PyVal) (s : PyStr) : Bool :=
  match v with
  | .pstr t => t == s
  | _ => false

/-- Python `str(v)` for the values the claims exercise (strings, ints,
None, line objects by id); the container renderings are abbreviated, no
claim evaluates them. -/
def pyScalarStr : PyVal → PyStr
  | .pstr s => s
  | .pint n => intStr n
  | .pnone => ps "None"
  | .plist _ => ps "[...]"
  | .pdict _ => ps "\x7b...\x7d"
  | .pline i => i

/-- A segment line as the graph operations see it: name, sequence,
tag mapping, and whether it is still connected to the graph. -/
structure Seg where
  name : PyStr
  sequence : PyStr
  tags : List (PyStr × PyVal)
  connected : Bool

/-- `tag.get(k)` over a tag mapping: the value, or Python `None` when the
tag is absent (gfapy's `Line.get`). -/
def tagsGet : List (PyStr × PyVal) → PyStr → PyVal
  | [], _ => .pnone
  | (k0, v0) :: rest, k => if k0 = k then v0 else tagsGet rest k

/-- `tag.set(k, v)` over a tag mapping. -/
def tagsSet : List (PyStr × PyVal) → PyStr → PyVal → List (PyStr × PyVal)
  | [], k, v => [(k, v)]
  | (k0, v0) :: rest, k, v =>
    if k0 = k then (k, v) :: rest else (k0, v0) :: tagsSet rest k v

/-- `s.get(tagname)` on a segment line. -/
def Seg.get (s : Seg) (k : PyStr) : PyVal := tagsGet s.tags k

/-- `s.set(tagname, value)` on a segment line. -/
def Seg.set (s : Seg) (k : PyStr) (v : PyVal) : Seg :=
  ⟨s.name, s.sequence, tagsSet s.tags k v, s.connected⟩

/-- The segment reference stored in a `SegmentEnd`: a live segment line, a
bare name (Python string), or any other object (as produced by
`from_list`, which stores `lst[0]` unchecked). -/
inductive SegRef where
  | line (s : Seg)
  | sym (n : PyStr)
  | obj (v : PyVal)

/-- gfapy.SegmentEnd: a segment reference plus an end symbol.  The
constructor stores the reference as the private `__segment` and
`str(end_type)` as the private `__end_type` (segment_end.py lines 8-10). -/
structure SegmentEnd where
  segment : SegRef
  end_type : PyStr

/-- The `name` property (segment_end.py lines 66-77): a line handle
resolves to its stored name, anything else to `str()` of itself. -/
def SegmentEnd.name (e : SegmentEnd) : PyStr :=
  match e.segment with
  | .line s => s.name
  | .sym n => n
  | .obj v => pyScalarStr v

/-- The attribute values a `SegmentEnd` instance resolves without entering
`__getattr__`: its two mangled instance attributes and the class's
properties and methods.  Everything else (in particular
`_SegmentEnd__line`, `orient` and `line`, which the source reads) falls
through to `__getattr__`. -/
inductive SEAttr where
  | str (s : PyStr)
  | ref (r : SegRef)
  | method (m : PyStr)

/-- Direct (non-`__getattr__`) attribute resolution on a `SegmentEnd`. -/
def seAttrDirect (e : SegmentEnd) (a : PyStr) : Option SEAttr :=
  if a = ps "_SegmentEnd__segment" then some (.ref e.segment)
  else if a = ps "_SegmentEnd__end_type" then some (.str e.end_type)
  else if a = ps "segment" then some (.ref e.segment)
  else if a = ps "name" then some (.str e.name)
  else if a = ps "end_type" then some (.str e.end_type)
  else if a = ps "validate" ∨ a = ps "invert" ∨ a = ps "from_string"
       ∨ a = ps "from_list" ∨ a = ps "_SegmentEnd__validate_end_type"
       ∨ a = ps "_SegmentEnd__validate_segment" then some (.method a)
  else none

/-- Attribute lookup on the object `self.__line` would return, were it
ever obtained.  Unreachable: `seGetattr_line` below shows the lookup of
`_SegmentEnd__line` never succeeds. -/
def delegGetattr (_v : SEAttr) (_a : PyStr) : Except PyErr SEAttr :=
  .error PyErr.attributeError

/-- Python `getattr(e, a)` on a `SegmentEnd`, with the recursion limit as
fuel.  When direct resolution fails, `__getattr__` runs
`getattr(self.__line, a)` (segment_end.py lines 136-137); evaluating
`self.__line` is itself a full lookup of the mangled name
`_SegmentEnd__line`, which again fails directly and re-enters
`__getattr__`, so the recursion only stops at the recursion limit:
Python raises `RecursionError`. -/
def seGetattr (e : SegmentEnd) : Nat → PyStr → Except PyErr SEAttr
  | 0, _ => .error PyErr.recursionError
  | fuel + 1, a =>
    match seAttrDirect e a with
    | some v => .ok v
    | none =>
      match seGetattr e fuel (ps "_SegmentEnd__line") with
      | .error er => .error er
      | .ok v => delegGetattr v a

/-- Modelled from the spec: `gfapy.invert` (a core helper that is not
under src/) swaps the end symbols `L` and `R`. -/
def gfapyInvert (s : PyStr) : PyStr :=
  if s = ps "L" then ps "R" else if s = ps "R" then ps "L" else s

/-- Recover a segment reference from a delegated attribute value.
Only reachable through `SegmentEnd.invertImpl`'s success branch, which
`seGetattr_line` shows is dead code. -/
def refOfAttr : SEAttr → SegRef
  | .ref r => r
  | .str s => .sym s
  | .method m => .sym m

/-- `SegmentEnd.invert` (segment_end.py lines 101-102):
`SegmentEnd(self.__line, gfapy.invert(self.end_type))`.  The first
argument evaluates `self.__line`, an attribute that is never set (the
instance stores `__segment`), so the call enters the `__getattr__`
recursion. -/
def SegmentEnd.invertImpl (fuel : Nat) (e : SegmentEnd) : Except PyErr SegmentEnd :=
  match seGetattr e fuel (ps "_SegmentEnd__line") with
  | .error er => .error er
  | .ok v => .ok ⟨refOfAttr v, gfapyInvert e.end_type⟩

/-- `SegmentEnd.__str__` (segment_end.py lines 104-111):
`"{}{}".format(self.name, self.end_type)`. -/
def seToString (e : SegmentEnd) : PyStr := e.name ++ e.end_type

/-- `SegmentEnd.from_string` (segment_end.py lines 139-148):
`SegmentEnd(string[0:-1], string[-1])`.  On the empty string the
subscript `string[-1]` raises `IndexError`. -/
def from_string (s : PyStr) : Except PyErr SegmentEnd :=
  match s.getLast? with
  | none => .error PyErr.indexError
  | some c => .ok ⟨.sym s.dropLast, [c]⟩

/-- `SegmentEnd.from_list` (segment_end.py lines 150-159):
`SegmentEnd(lst[0], str(lst[1]))`; a list shorter than two elements
raises `IndexError`. -/
def from_list (l : List PyVal) : Except PyErr SegmentEnd :=
  match l.get? 0, l.get? 1 with
  | some a, some b => .ok ⟨.obj a, pyScalarStr b⟩
  | _, _ => .error PyErr.indexError

/-- The right operand of `SegmentEnd.__eq__`: another `SegmentEnd`, a
list, a string, or a value of any other type. -/
inductive PyOperand where
  | se (e : SegmentEnd)
  | lst (l : List PyVal)
  | str (s : PyStr)
  | obj (v : PyVal)

/-- The operand coercion at the top of `__eq__` (segment_end.py lines
126-133): a `SegmentEnd` passes through, a list goes through `from_list`,
a string through `from_string`, anything else short-circuits to `False`
(returned here as `none`). -/
def coerceOperand : PyOperand → Except PyErr (Option SegmentEnd)
  | .se o => .ok (some o)
  | .lst l => (from_list l).map some
  | .str s => (from_string s).map some
  | .obj _ => .ok none

/-- Python `==` between two delegated attribute values; only reachable
after two successful `orient` lookups, which `seGetattr` never delivers
(see `seGetattr_orient`). -/
def seAttrPyEq : SEAttr → SEAttr → Bool
  | .str a, .str b => a == b
  | _, _ => false

/-- `SegmentEnd.__eq__` (segment_end.py lines 113-134).  After coercion it
evaluates `(self.name == other.name) and (self.orient == other.orient)`:
`name` is a real property, but `orient` is not an attribute of
`SegmentEnd`, so when the names agree the `and`'s right operand enters
the `__getattr__` recursion. -/
def seEqImpl (fuel : Nat) (self : SegmentEnd) (other : PyOperand) : Except PyErr Bool :=
  match coerceOperand other with
  | .error er => .error er
  | .ok none => .ok false
  | .ok (some o) =>
    if self.name = o.name then
      match seGetattr self fuel (ps "orient") with
      | .error er => .error er
      | .ok v1 =>
        match seGetattr o fuel (ps "orient") with
        | .error er => .error er
        | .ok v2 => .ok (seAttrPyEq v1 v2)
    else .ok false

/-- `SegmentEnd.__validate_segment` (segment_end.py lines 31-43).  It
begins by reading `self.line`, which is not an attribute of the class, so
every call enters the `__getattr__` recursion.  Were a value obtained,
the subsequent `re.match` would raise `NameError`: segment_end.py never
imports `re`. -/
def seValidateSegment (fuel : Nat) (e : SegmentEnd) : Except PyErr Unit :=
  match seGetattr e fuel (ps "line") with
  | .error er => .error er
  | .ok _ => .error PyErr.nameError

/-- `SegmentEnd.__validate_end_type` (segment_end.py lines 26-29). -/
def seValidateEndType (e : SegmentEnd) : Except PyErr Unit :=
  if e.end_type = ps "L" ∨ e.end_type = ps "R" then .ok ()
  else .error PyErr.valueError

/-- `SegmentEnd.validate` (segment_end.py lines 12-24): segment check
first, then end-type check. -/
def seValidate (fuel : Nat) (e : SegmentEnd) : Except PyErr Unit :=
  match seValidateSegment fuel e with
  | .error er => .error er
  | .ok _ => seValidateEndType e

/-! ## gfapy/field/identifier_list_gfa2.py -/

/-- The character class `[ !-~]` (printable ASCII including space). -/
def listClassChar (c : Char) : Bool := 0x20 ≤ c.toNat && c.toNat ≤ 0x7E

/-- The character class `[!-~]` (printable ASCII excluding space). -/
def idClassChar (c : Char) : Bool := 0x21 ≤ c.toNat && c.toNat ≤ 0x7E

/-- The tail of Python's `re.match("^[C]+$", s)` after at least one class
character has been consumed: either the remainder is all class characters
up to the end of the string, or up to a `$` position.  Python's `$`
matches at the end of the string and also just before a newline that ends
the string, which is what the single-character case encodes. -/
def dollarTail (p : Char → Bool) : PyStr → Bool
  | [] => true
  | [c] => c = '\n' || p c
  | c :: c2 :: rest => p c && dollarTail p (c2 :: rest)

/-- Python's `re.match("^[C]+$", s)` for a one-class pattern whose class
does not contain a newline: at least one leading class character, then
`dollarTail`. -/
def pyMatchClassPlus (p : Char → Bool) : PyStr → Bool
  | [] => false
  | c :: rest => p c && dollarTail p rest

/-- `validate_encoded` (identifier_list_gfa2.py lines 11-15): FormatError
unless the still-encoded string matches `^[ !-~]+$` under Python
`re.match` semantics. -/
def validate_encoded (s : PyStr) : Except PyErr Unit :=
  if pyMatchClassPlus listClassChar s then .ok () else .error PyErr.formatError

/-- `decode` (identifier_list_gfa2.py lines 7-9): validate the encoded
string, then return it unchanged (no splitting, no per-element checks). -/
def decode (s : PyStr) : Except PyErr PyStr :=
  match validate_encoded s with
  | .error e => .error e
  | .ok _ => .ok s

/-- `unsafe_decode` (identifier_list_gfa2.py lines 4-5): split on single
spaces without any validation. -/
def unsafe_decode (s : PyStr) : List PyStr := s.splitOn ' '

/-- Python `isinstance(v, str)` on the modelled values. -/
def isPyStr : PyVal → Bool
  | .pstr _ => true
  | _ => false

/-- Python `isinstance(v, gfapy.Line)` on the modelled values. -/
def isPyLine : PyVal → Bool
  | .pline _ => true
  | _ => false

/-- The body of `validate_decoded`'s per-element loop (identifier_list_
gfa2.py lines 19-33).  Note the two `isinstance` tests are applied to
`obj` — the enclosing list — and not to `elem`, exactly as in the source;
since `obj` is a list, both fail and the loop raises `TypeError` at its
first element.  The dead branches are still modelled: had `obj` been a
string the element would be regex-checked as is (`re.match` on a non-str
raises `TypeError`), had it been a line object the element would be
replaced by `str(elem.id)` (raising `AttributeError` on a non-line). -/
def vd_loop (obj : PyVal) : List PyVal → Except PyErr Unit
  | [] => .ok ()
  | elem :: rest =>
    let step : Except PyErr PyVal :=
      if isPyStr obj then .ok elem
      else if isPyLine obj then
        match elem with
        | .pline i => .ok (.pstr i)
        | _ => .error PyErr.attributeError
      else .error PyErr.typeError
    match step with
    | .error e => .error e
    | .ok elem2 =>
      match elem2 with
      | .pstr s =>
        if pyMatchClassPlus idClassChar s then vd_loop obj rest
        else .error PyErr.formatError
      | _ => .error PyErr.typeError

/-- `validate_decoded` (identifier_list_gfa2.py lines 17-38): only lists
are accepted at all (anything else is a `TypeError`), and each element is
run through `vd_loop`. -/
def validate_decoded (obj : PyVal) : Except PyErr Unit :=
  match obj with
  | .plist elems => vd_loop obj elems
  | _ => .error PyErr.typeError

/-- The local `func` of `unsafe_encode` (identifier_list_gfa2.py lines
42-51): again the `isinstance` tests hit `obj`, not `elem`; moreover its
branches evaluate `elem` or `str(elem.id)` without returning them, so a
non-raising call returns Python's `None`. -/
def ue_func (obj : PyVal) (elem : PyVal) : Except PyErr PyVal :=
  if isPyStr obj then .ok .pnone
  else if isPyLine obj then
    match elem with
    | .pline _ => .ok .pnone
    | _ => .error PyErr.attributeError
  else .error PyErr.typeError

/-- `" ".join(map(func, obj))`: the map is consumed lazily, and each
produced value must be a string, else `join` raises `TypeError` at that
point. -/
def ue_join (obj : PyVal) : List PyVal → Except PyErr (List PyStr)
  | [] => .ok []
  | e :: rest =>
    match ue_func obj e with
    | .error er => .error er
    | .ok v =>
      match v with
      | .pstr s => (ue_join obj rest).map (fun parts => s :: parts)
      | _ => .error PyErr.typeError

/-- Join a list of strings with single spaces. -/
def sepJoin : List PyStr → PyStr
  | [] => []
  | [x] => x
  | x :: y :: rest => x ++ ' ' :: sepJoin (y :: rest)

/-- `unsafe_encode` (identifier_list_gfa2.py lines 40-59): lists are
joined via `func`, strings are returned unchanged, anything else raises
`TypeError`. -/
def unsafe_encode (obj : PyVal) : Except PyErr PyVal :=
  match obj with
  | .plist l => (ue_join obj l).map (fun parts => .pstr (sepJoin parts))
  | .pstr s => .ok (.pstr s)
  | _ => .error PyErr.typeError

/-- `encode` (identifier_list_gfa2.py lines 61-63): `validate_decoded`
then `unsafe_encode`. -/
def encode (obj : PyVal) : Except PyErr PyVal :=
  match validate_decoded obj with
  | .error e => .error e
  | .ok _ => unsafe_encode obj

/-! ## gfapy/graph_operations/redundant_linear_paths.py -/

/-- An edge line created by the graph operations: a GFA1 `Link` or a GFA2
edge, each carrying its raw field list exactly as the source builds it. -/
inductive GfaLine where
  | link (fields : List PyVal)
  | edge2 (fields : List PyVal)

/-- The graph object (`self`): format version, segment lines, and the
edge lines added so far by `add_line`. -/
structure Gfa where
  version : PyStr
  segments : List Seg
  lines : List GfaLine

/-- `self.add_line(edge)`. -/
def Gfa.addLine (g : Gfa) (l : GfaLine) : Gfa :=
  ⟨g.version, g.segments, g.lines ++ [l]⟩

/-- Modelled from the spec: GraphStore segment lookup by name
(`gfapy.Gfa.segment`, which is not under src/): the segment, or a
NotFoundError failure. -/
def Gfa.segmentByName (g : Gfa) (n : PyStr) : Except PyErr Seg :=
  match g.segments.find? (fun s => s.name == n) with
  | some s => .ok s
  | none => .error PyErr.notFoundError

/-- Modelled from the spec: `self.segment` applied to a segment-or-name
reference — a live handle is returned as is, a bare name is looked up. -/
def Gfa.segmentRef (g : Gfa) : SegRef → Except PyErr Seg
  | .line s => .ok s
  | .sym n => g.segmentByName n
  | .obj _ => .error PyErr.notFoundError

/-- `s.disconnect()` on a segment of the graph, by name: the segment is
detached from the live graph. -/
def Gfa.disconnectSeg (g : Gfa) (n : PyStr) : Gfa :=
  ⟨g.version, g.segments.map (fun s =>
      if s.name == n then ⟨s.name, s.sequence, s.tags, false⟩ else s),
    g.lines⟩

/-- Lines 35-36 / 62-63 / 90-91: `if jntag is None: jntag = "jn"`. -/
def jnTagName : Option PyStr → PyStr
  | none => ps "jn"
  | some t => t

/-- The fresh provenance payload `{"L":[],"R":[]}` (lines 38 and 65). -/
def jnEmpty : PyVal :=
  .pdict [(ps "L", .plist []), (ps "R", .plist [])]

/-- The junction-annotation step shared by `__link_duplicated_first`
(lines 34-42) and `__link_duplicated_last` (lines 61-69): create the
provenance tag if its current value is falsy, then append the pair to the
list at the chosen side — `first.get(jntag)[side].append(pair)` mutates
the list inside the tag's dict in place, modelled as a functional update
of the same tag. -/
def jn_annotate (s : Seg) (tag side : PyStr) (pair : PyVal) : Seg × Option PyErr :=
  let s1 := if pyTruthy (s.get tag) then s else s.set tag jnEmpty
  let t := s1.get tag
  match t.getItem side with
  | .error e => (s1, some e)
  | .ok lst =>
    match lst.appendItem pair with
    | .error e => (s1, some e)
    | .ok lst2 => (s1.set tag (t.setItem side lst2), none)

/-- `__link_duplicated_first` (redundant_linear_paths.py lines 33-58).
Returns the graph, the (possibly annotated) junction segment `first`,
and the raised exception if any.  The temporary link's overlap is
`"{}M".format(ln)` with `ln = len(first.sequence)` — the junction
segment's own length (line 44). -/
def link_duplicated_first (g : Gfa) (merged first : Seg) (is_reversed : Bool)
    (jntag : Option PyStr) : Gfa × Seg × Option PyErr :=
  let tag := jnTagName jntag
  let side := if is_reversed then ps "L" else ps "R"
  let sign := if is_reversed then ps "-" else ps "+"
  let pair := PyVal.plist [PyVal.pstr merged.name, PyVal.pstr sign]
  match jn_annotate first tag side pair with
  | (first2, some e) => (g, first2, some e)
  | (first2, none) =>
    let ln := first2.sequence.length
    if g.version = ps "gfa1" then
      (g.addLine (GfaLine.link
        [PyVal.pstr first2.name, PyVal.pstr sign,
         PyVal.pstr merged.name, PyVal.pstr (ps "+"),
         PyVal.pstr (natStr ln ++ ps "M"),
         PyVal.pstr (ps "co:Z:temporary")]), first2, none)
    else if g.version = ps "gfa2" then
      (g.addLine (GfaLine.edge2
        [PyVal.pstr (ps "*"),
         PyVal.pstr (first2.name ++ sign),
         PyVal.pstr (merged.name ++ ps "+"),
         PyVal.pstr (if is_reversed then ps "0" else intStr ((ln : Int) - 1)),
         PyVal.pstr (if is_reversed then ps "1" else natStr ln ++ ps "$"),
         PyVal.pint 0, PyVal.pstr (natStr ln),
         PyVal.pstr (natStr ln ++ ps "M"),
         PyVal.pstr (ps "co:Z:temporary")]), first2, none)
    else (g, first2, some PyErr.assertionError)

/-- `__link_duplicated_last` (redundant_linear_paths.py lines 60-87).
As above with the sides of the annotation swapped and the link direction
reversed; `ln = len(last.sequence)` (line 71).  In the gfa2 branch the
field list references the unbound name `last_name` (line 80: the segment
is called `last`), so after computing `mln` the branch raises `NameError`
and adds no line. -/
def link_duplicated_last (g : Gfa) (merged last : Seg) (is_reversed : Bool)
    (jntag : Option PyStr) : Gfa × Seg × Option PyErr :=
  let tag := jnTagName jntag
  let side := if is_reversed then ps "R" else ps "L"
  let sign := if is_reversed then ps "-" else ps "+"
  let pair := PyVal.plist [PyVal.pstr merged.name, PyVal.pstr sign]
  match jn_annotate last tag side pair with
  | (last2, some e) => (g, last2, some e)
  | (last2, none) =>
    let ln := last2.sequence.length
    if g.version = ps "gfa1" then
      (g.addLine (GfaLine.link
        [PyVal.pstr merged.name, PyVal.pstr (ps "+"),
         PyVal.pstr last2.name, PyVal.pstr sign,
         PyVal.pstr (natStr ln ++ ps "M"),
         PyVal.pstr (ps "co:Z:temporary")]), last2, none)
    else if g.version = ps "gfa2" then
      (g, last2, some PyErr.nameError)
    else (g, last2, some PyErr.assertionError)

/-- Python `m1 + dir1` where `m1` is a string and `dir1` an arbitrary
value: concatenation if `dir1` is a string, `TypeError` otherwise. -/
def pyAddStrVal (s : PyStr) (v : PyVal) : Except PyErr PyStr :=
  match v with
  | .pstr t => .ok (s ++ t)
  | _ => .error PyErr.typeError

/-- One edge creation of `__remove_junctions`' innermost loop body
(redundant_linear_paths.py lines 98-114), for an item pair
`(m1, dir1)`/`(m2, dir2)`.  Note line 110 of the source tests `r1` where
the symmetric line 109 tests `r2`; the model keeps that as written. -/
def rj_edge (g : Gfa) (ln : Nat) (m1 : PyStr) (d1 : PyVal) (m2 : PyStr)
    (d2 : PyVal) : Gfa × Option PyErr :=
  if g.version = ps "gfa1" then
    (g.addLine (GfaLine.link
      [PyVal.pstr m1, d1, PyVal.pstr m2, d2,
       PyVal.pstr (natStr ln ++ ps "M")]), none)
  else if g.version = ps "gfa2" then
    match g.segmentByName m1 with
    | .error e => (g, some e)
    | .ok s1 =>
      match g.segmentByName m2 with
      | .error e => (g, some e)
      | .ok s2 =>
        let m1ln := s1.sequence.length
        let m2ln := s2.sequence.length
        let r1 := pyEqStr d1 (ps "-")
        let r2 := pyEqStr d2 (ps "-")
        match pyAddStrVal m1 d1 with
        | .error e => (g, some e)
        | .ok sid1 =>
          match pyAddStrVal m2 d2 with
          | .error e => (g, some e)
          | .ok sid2 =>
            (g.addLine (GfaLine.edge2
              [PyVal.pstr (ps "*"), PyVal.pstr sid1, PyVal.pstr sid2,
               PyVal.pstr (if r1 then ps "0" else intStr ((m1ln : Int) - ln)),
               PyVal.pstr (if r1 then natStr ln else natStr m1ln ++ ps "$"),
               PyVal.pstr (if r2 then ps "0" else intStr ((m2ln : Int) - ln)),
               PyVal.pstr (if r1 then natStr ln else natStr m2ln ++ ps "$"),
               PyVal.pstr (natStr ln ++ ps "M")]), none)
  else (g, some PyErr.assertionError)

/-- The inner loop `for m2, dir2 in jndata["R"].items():`. -/
def rj_inner (g : Gfa) (ln : Nat) (m1 : PyStr) (d1 : PyVal) :
    List (PyStr × PyVal) → Gfa × Option PyErr
  | [] => (g, none)
  | (m2, d2) :: rest =>
    match rj_edge g ln m1 d1 m2 d2 with
    | (g2, some e) => (g2, some e)
    | (g2, none) => rj_inner g2 ln m1 d1 rest

/-- The outer loop `for m1, dir1 in jndata["L"].items():`; the inner
iterable `jndata["R"].items()` is re-evaluated on every outer iteration,
as in the source. -/
def rj_outer (g : Gfa) (ln : Nat) (jndata : PyVal) :
    List (PyStr × PyVal) → Gfa × Option PyErr
  | [] => (g, none)
  | (m1, d1) :: rest =>
    match jndata.getItem (ps "R") with
    | .error e => (g, some e)
    | .ok rv =>
      match rv.items with
      | .error e => (g, some e)
      | .ok rItems =>
        match rj_inner g ln m1 d1 rItems with
        | (g2, some e) => (g2, some e)
        | (g2, none) => rj_outer g2 ln jndata rest

/-- The per-segment body of `__remove_junctions` (lines 93-115): read the
provenance tag; when truthy, run the cross-product loops and finally
disconnect the junction segment.  `jndata["L"]` is a list (built by the
annotation steps), so `jndata["L"].items()` raises `AttributeError`. -/
def rj_segment (g : Gfa) (tag : PyStr) (s : Seg) : Gfa × Option PyErr :=
  let jndata := s.get tag
  if pyTruthy jndata then
    let ln := s.sequence.length
    match jndata.getItem (ps "L") with
    | .error e => (g, some e)
    | .ok lv =>
      match lv.items with
      | .error e => (g, some e)
      | .ok lItems =>
        match rj_outer g ln jndata lItems with
        | (g2, some e) => (g2, some e)
        | (g2, none) => (g2.disconnectSeg s.name, none)
  else (g, none)

/-- The segment iteration of `__remove_junctions` over a snapshot of
`self.segments`, propagating the first raised exception. -/
def rj_go (tag : PyStr) (g : Gfa) : List Seg → Gfa × Option PyErr
  | [] => (g, none)
  | s :: rest =>
    match rj_segment g tag s with
    | (g2, some e) => (g2, some e)
    | (g2, none) => rj_go tag g2 rest

/-- `__remove_junctions` (redundant_linear_paths.py lines 89-115). -/
def remove_junctions (g : Gfa) (jntag : Option PyStr) : Gfa × Option PyErr :=
  rj_go (jnTagName jntag) g g.segments

/-- Models the attribute access `segpath[0].end_type.invert()` of
redundant_linear_paths.py line 21 (and line 27's symmetric use of
`end_type`): `end_type` is a Python `str`, and `str` has no attribute
`invert` — the intended call was `gfapy.invert(...)` — so the expression
always raises `AttributeError`; the `Empty` payload records that it can
never produce a value. -/
def pyStrInvertAttr (_s : PyStr) : Except PyErr Empty :=
  .error PyErr.attributeError

/-- `__extend_linear_path_to_junctions` (redundant_linear_paths.py lines
19-31).  `segpath[0]` on an empty path raises `IndexError`; the lookup
`self.segment(...)` may fail; and then line 21 evaluates
`segfirst.dovetails(segpath[0].end_type.invert())`, whose argument
raises `AttributeError` before `dovetails` is ever called.  (Had it not,
line 24 would recurse through `SegmentEnd.invert`'s `self.__line` and
line 26 would raise `NameError` on the unbound name `segment`.) -/
def extend_linear_path_to_junctions (g : Gfa) (segpath : List SegmentEnd) :
    Except PyErr (List SegmentEnd) :=
  match segpath.head? with
  | none => .error PyErr.indexError
  | some e0 =>
    match g.segmentRef e0.segment with
    | .error er => .error er
    | .ok _segfirst =>
      match pyStrInvertAttr e0.end_type with
      | .error er => .error er
      | .ok em => em.elim

/-! ## Helper lemmas -/

/-- The mangled name `_SegmentEnd__line` is never a resolvable attribute,
and its `__getattr__` fallback re-reads the same name, so the lookup
exhausts any recursion depth: Python raises `RecursionError`. -/
lemma seGetattr_line (e : SegmentEnd) :
    ∀ fuel, seGetattr e fuel (ps "_SegmentEnd__line") = .error PyErr.recursionError := by
  intro fuel
  induction fuel with
  | zero => rfl
  | succ n ih =>
    show (match seAttrDirect e (ps "_SegmentEnd__line") with
      | some v => Except.ok v
      | none =>
        match seGetattr e n (ps "_SegmentEnd__line") with
        | .error er => Except.error er
        | .ok v => delegGetattr v (ps "_SegmentEnd__line")) = _
    rw [show seAttrDirect e (ps "_SegmentEnd__line") = none from rfl, ih]

/-- `orient` is not an attribute of `SegmentEnd` either, so its lookup
also ends in `RecursionError` at every depth. -/
lemma seGetattr_orient (e : SegmentEnd) :
    ∀ fuel, seGetattr e fuel (ps "orient") = .error PyErr.recursionError := by
  intro fuel
  cases fuel with
  | zero => rfl
  | succ n =>
    show (match seAttrDirect e (ps "orient") with
      | some v => Except.ok v
      | none =>
        match seGetattr e n (ps "_SegmentEnd__line") with
        | .error er => Except.error er
        | .ok v => delegGetattr v (ps "orient")) = _
    rw [show seAttrDirect e (ps "orient") = none from rfl, seGetattr_line]

/-- Neither is `line`. -/
lemma seGetattr_lineattr (e : SegmentEnd) :
    ∀ fuel, seGetattr e fuel (ps "line") = .error PyErr.recursionError := by
  intro fuel
  cases fuel with
  | zero => rfl
  | succ n =>
    show (match seAttrDirect e (ps "line") with
      | some v => Except.ok v
      | none =>
        match seGetattr e n (ps "_SegmentEnd__line") with
        | .error er => Except.error er
        | .ok v => delegGetattr v (ps "line")) = _
    rw [show seAttrDirect e (ps "line") = none from rfl, seGetattr_line]

/-- Reading back a tag just set. -/
lemma tagsGet_set (t : List (PyStr × PyVal)) (k : PyStr) (v : PyVal) :
    tagsGet (tagsSet t k v) k = v := by
  induction t with
  | nil => simp [tagsSet, tagsGet]
  | cons kv rest ih =>
    obtain ⟨k0, v0⟩ := kv
    by_cases h : k0 = k
    · simp [tagsSet, h, tagsGet]
    · simp [tagsSet, h, tagsGet, ih]

lemma seg_get_set (s : Seg) (k : PyStr) (v : PyVal) :
    (s.set k v).get k = v := tagsGet_set s.tags k v

lemma seg_set_sequence (s : Seg) (k : PyStr) (v : PyVal) :
    (s.set k v).sequence = s.sequence := rfl

lemma seg_set_name (s : Seg) (k : PyStr) (v : PyVal) :
    (s.set k v).name = s.name := rfl

/-- A well-formed provenance-tag state: absent (Python `None`), or the
dict shape `{"L": <list>, "R": <list>}` that the annotation steps build. -/
def jnWellFormed (v : PyVal) : Prop :=
  v = PyVal.pnone ∨
    ∃ lL lR, v = PyVal.pdict [(ps "L", PyVal.plist lL), (ps "R", PyVal.plist lR)]

/-- On a well-formed tag state the annotation step succeeds and only the
tags change. -/
lemma jn_annotate_ok (s : Seg) (tag side : PyStr) (pair : PyVal)
    (hside : side = ps "L" ∨ side = ps "R")
    (h : jnWellFormed (s.get tag)) :
    ∃ s2, jn_annotate s tag side pair = (s2, none)
      ∧ s2.sequence = s.sequence ∧ s2.name = s.name := by
  rcases h with h | ⟨lL, lR, h⟩
  · have e1 : (if pyTruthy (s.get tag) then s else s.set tag jnEmpty)
        = s.set tag jnEmpty := by rw [h]; rfl
    rcases hside with hs | hs <;> subst hs
    · exact ⟨(s.set tag jnEmpty).set tag
          (jnEmpty.setItem (ps "L") (PyVal.plist [pair])),
        by simp only [jn_annotate]; rw [e1, seg_get_set]; rfl, rfl, rfl⟩
    · exact ⟨(s.set tag jnEmpty).set tag
          (jnEmpty.setItem (ps "R") (PyVal.plist [pair])),
        by simp only [jn_annotate]; rw [e1, seg_get_set]; rfl, rfl, rfl⟩
  · have e1 : (if pyTruthy (s.get tag) then s else s.set tag jnEmpty) = s := by
      rw [h]; rfl
    rcases hside with hs | hs <;> subst hs
    · exact ⟨s.set tag ((PyVal.pdict [(ps "L", PyVal.plist lL),
            (ps "R", PyVal.plist lR)]).setItem (ps "L")
          (PyVal.plist (lL ++ [pair]))),
        by simp only [jn_annotate]; rw [e1]; rw [h]; rfl, rfl, rfl⟩
    · exact ⟨s.set tag ((PyVal.pdict [(ps "L", PyVal.plist lL),
            (ps "R", PyVal.plist lR)]).setItem (ps "R")
          (PyVal.plist (lR ++ [pair]))),
        by simp only [jn_annotate]; rw [e1]; rw [h]; rfl, rfl, rfl⟩

/-- Characterisation of `dollarTail`: the remainder matches iff it is all
class characters, or all class characters followed by one final newline
(Python's `$`). -/
lemma dollarTail_iff (p : Char → Bool) (l : PyStr) :
    dollarTail p l = true ↔
      (l.all p = true ∨ ∃ t, l = t ++ ['\n'] ∧ t.all p = true) := by
  induction l with
  | nil => simp [dollarTail]
  | cons c rest ih =>
    cases rest with
    | nil =>
      by_cases hc : c = '\n'
      · subst hc
        simp only [dollarTail]
        constructor
        · intro _; exact Or.inr ⟨[], rfl, rfl⟩
        · intro _; simp
      · simp only [dollarTail, List.all_cons, List.all_nil, Bool.and_true]
        rw [decide_eq_false hc, Bool.false_or]
        constructor
        · exact fun h => Or.inl h
        · rintro (h | ⟨t, ht, _⟩)
          · exact h
          · exfalso
            cases t with
            | nil =>
              have := (List.cons.inj ht).1
              exact hc this
            | cons a t2 =>
              have := (List.cons.inj ht).2
              exact List.append_ne_nil_of_right_ne_nil t2
                (List.cons_ne_nil _ _) this.symm
    | cons c2 rest2 =>
      rw [show dollarTail p (c :: c2 :: rest2)
          = (p c && dollarTail p (c2 :: rest2)) from rfl, Bool.and_eq_true]
      constructor
      · rintro ⟨hpc, htail⟩
        rcases ih.mp htail with hall | ⟨t, ht, hta⟩
        · exact Or.inl (by simp [List.all_cons, hpc, hall])
        · refine Or.inr ⟨c :: t, ?_, ?_⟩
          · rw [List.cons_append, ← ht]
          · simp [List.all_cons, hpc, hta]
      · rintro (hall | ⟨t, ht, hta⟩)
        · rw [List.all_cons, Bool.and_eq_true] at hall
          exact ⟨hall.1, ih.mpr (Or.inl hall.2)⟩
        · cases t with
          | nil => simp at ht
          | cons a t2 =>
            rw [List.cons_append] at ht
            have ha := (List.cons.inj ht).1
            have ht2 := (List.cons.inj ht).2
            rw [List.all_cons, Bool.and_eq_true] at hta
            subst ha
            exact ⟨hta.1, ih.mpr (Or.inr ⟨t2, ht2, hta.2⟩)⟩

/-- Characterisation of the modelled `re.match("^[C]+$", s)`: success iff
the string is a nonempty run of class characters, possibly followed by
one final newline. -/
lemma pyMatchClassPlus_iff (p : Char → Bool) (s : PyStr) :
    pyMatchClassPlus p s = true ↔
      ((s ≠ [] ∧ s.all p = true) ∨
        ∃ t, s = t ++ ['\n'] ∧ t ≠ [] ∧ t.all p = true) := by
  cases s with
  | nil =>
    simp only [pyMatchClassPlus]
    constructor
    · intro h; cases h
    · rintro (⟨h, _⟩ | ⟨t, ht, _, _⟩)
      · exact absurd rfl h
      · exact absurd ht.symm
          (List.append_ne_nil_of_right_ne_nil t (List.cons_ne_nil _ _))
  | cons c rest =>
    rw [show pyMatchClassPlus p (c :: rest) = (p c && dollarTail p rest) from rfl,
      Bool.and_eq_true, dollarTail_iff]
    constructor
    · rintro ⟨hpc, hall | ⟨t, ht, hta⟩⟩
      · exact Or.inl ⟨List.cons_ne_nil _ _, by simp [List.all_cons, hpc, hall]⟩
      · exact Or.inr ⟨c :: t, by rw [List.cons_append, ← ht],
          List.cons_ne_nil _ _, by simp [List.all_cons, hpc, hta]⟩
    · rintro (⟨_, hall⟩ | ⟨t, ht, htne, hta⟩)
      · rw [List.all_cons, Bool.and_eq_true] at hall
        exact ⟨hall.1, Or.inl hall.2⟩
      · cases t with
        | nil => exact absurd rfl htne
        | cons a t2 =>
          rw [List.cons_append] at ht
          have ha := (List.cons.inj ht).1
          have ht2 := (List.cons.inj ht).2
          rw [List.all_cons, Bool.and_eq_true] at hta
          subst ha
          exact ⟨hta.1, Or.inr ⟨t2, ht2, hta.2⟩⟩

/-! ## Claim theorems -/

/-- C4: the claim fails on the code.  For every endpoint and every
recursion limit, `SegmentEnd.invert` raises `RecursionError`: it reads
`self.__line`, an attribute that is never set (the constructor stores
`__segment`), and the `__getattr__` fallback loops on the same name.  It
therefore never returns the same-segment opposite-side endpoint, and the
involution property never gets to hold. -/
theorem claim_c4_invert_raises (e : SegmentEnd) (fuel : Nat) :
    SegmentEnd.invertImpl fuel e = .error PyErr.recursionError := by
  simp [SegmentEnd.invertImpl, seGetattr_line]

/-- C5: round trip of the string form.  For every endpoint whose end-type
is `L` or `R`, decoding the encoded form `name ++ side` yields an
endpoint with the same resolved name and the same end-side — equality of
oriented endpoints in the sense of the spec (resolved name, end-side). -/
theorem claim_c5_roundtrip (e : SegmentEnd)
    (h : e.end_type = ps "L" ∨ e.end_type = ps "R") :
    ∃ e2, from_string (seToString e) = .ok e2
      ∧ e2.name = e.name ∧ e2.end_type = e.end_type := by
  have key : ∀ c : Char, e.end_type = [c] →
      from_string (seToString e) = .ok ⟨.sym e.name, [c]⟩ := by
    intro c hc
    show from_string (e.name ++ e.end_type) = _
    rw [hc]
    simp only [from_string, List.getLast?_concat, List.dropLast_concat]
  rcases h with h | h
  · exact ⟨⟨.sym e.name, ps "L"⟩, key 'L' h, rfl, h.symm⟩
  · exact ⟨⟨.sym e.name, ps "R"⟩, key 'R' h, rfl, h.symm⟩

/-- C5 witness: the round trip evaluated on the endpoint `s1L`. -/
theorem claim_c5_roundtrip_witness :
    ((ps "L" = ps "L" ∨ (ps "L" : PyStr) = ps "R")
      ∧ ∃ e2, from_string (seToString ⟨.sym (ps "s1"), ps "L"⟩) = .ok e2
          ∧ e2.name = SegmentEnd.name ⟨.sym (ps "s1"), ps "L"⟩
          ∧ e2.end_type = ps "L") :=
  ⟨Or.inl rfl, claim_c5_roundtrip ⟨.sym (ps "s1"), ps "L"⟩ (Or.inl rfl)⟩

/-- C6: the claim fails on the code.  Comparing two endpoints with equal
resolved names evaluates `self.orient`, an attribute `SegmentEnd` does
not have, so `__eq__` raises `RecursionError` through the `__getattr__`
loop instead of returning `True`; only the incomparable-type branch
behaves as claimed (it returns `False` without raising). -/
theorem claim_c6_eq_raises (fuel : Nat) :
    seEqImpl fuel ⟨.sym (ps "a"), ps "L"⟩ (.se ⟨.sym (ps "a"), ps "L"⟩)
        = .error PyErr.recursionError
    ∧ seEqImpl fuel ⟨.sym (ps "a"), ps "L"⟩ (.obj (PyVal.pint 5)) = .ok false := by
  refine ⟨?_, rfl⟩
  simp [seEqImpl, coerceOperand, SegmentEnd.name, seGetattr_orient]

/-- C7: the claim fails on the code.  For every endpoint and every
recursion limit, `validate` raises `RecursionError`: `__validate_segment`
starts by reading `self.line`, which is not an attribute of the class, so
the `__getattr__` loop fires before any `FormatError`/`ValueError`
classification (and the module never imports `re` either). -/
theorem claim_c7_validate_raises (e : SegmentEnd) (fuel : Nat) :
    seValidate fuel e = .error PyErr.recursionError := by
  simp [seValidate, seValidateSegment, seGetattr_lineattr]

/-- The claim's reading of a match of `^[ !-~]+$`: a plain anchored full
match — a nonempty string all of whose characters are printable or space.
(Stated from the claim's words, for comparison with the code's Python
`re.match` semantics.) -/
def claimFullMatch (s : PyStr) : Prop :=
  s ≠ [] ∧ s.all listClassChar = true

/-- C9 counterexample: the string made of `a` followed by a newline
contains a control character, hence does not match `^[ !-~]+$` as a full
match, yet `decode` accepts it unchanged: Python's `$` also matches just
before a trailing newline, so the claimed equivalence fails. -/
theorem claim_c9_counterexample :
    decode (ps "a\n") = .ok (ps "a\n") ∧ ¬ claimFullMatch (ps "a\n") := by
  constructor
  · rfl
  · intro h
    exact absurd h.2 (by decide)

/-- C9 (amended): `decode` raises `FormatError` exactly when the string
fails Python's `re.match` of `^[ !-~]+$` — i.e. unless it is a nonempty
run of printable-or-space characters optionally followed by one trailing
newline — and otherwise returns the string unchanged, with no per-element
validation. -/
theorem claim_c9_amended (s : PyStr) :
    (decode s = .ok s ↔
      ((s ≠ [] ∧ s.all listClassChar = true) ∨
        ∃ t, s = t ++ ['\n'] ∧ t ≠ [] ∧ t.all listClassChar = true))
    ∧ (decode s = .error PyErr.formatError ↔
      ¬ ((s ≠ [] ∧ s.all listClassChar = true) ∨
        ∃ t, s = t ++ ['\n'] ∧ t ≠ [] ∧ t.all listClassChar = true)) := by
  have hiff := pyMatchClassPlus_iff listClassChar s
  by_cases hm : pyMatchClassPlus listClassChar s = true
  · have hd : decode s = .ok s := by simp [decode, validate_encoded, hm]
    have hr := hiff.mp hm
    refine ⟨⟨fun _ => hr, fun _ => hd⟩, fun hse => ?_, fun hn => absurd hr hn⟩
    rw [hd] at hse
    cases hse
  · have hd : decode s = .error PyErr.formatError := by
      simp [decode, validate_encoded, hm]
    have hr : ¬ ((s ≠ [] ∧ s.all listClassChar = true) ∨
        ∃ t, s = t ++ ['\n'] ∧ t ≠ [] ∧ t.all listClassChar = true) :=
      fun hc => hm (hiff.mpr hc)
    refine ⟨⟨fun hok => ?_, fun hc => absurd hc hr⟩, fun _ => hr, fun _ => hd⟩
    rw [hd] at hok
    cases hok

/-- GFA overlap/alignment column of an emitted edge line (field 5 of a
GFA1 `L` line without the record-type column, field 8 of a GFA2 `E` line
without the record type). -/
def lineOverlap : GfaLine → Option PyVal
  | .link f => f.get? 4
  | .edge2 f => f.get? 7

/-- An emitted edge line is tagged temporary when its final field is the
tag `co:Z:temporary`. -/
def lineIsTemporary : GfaLine → Prop
  | .link f => f.getLast? = some (PyVal.pstr (ps "co:Z:temporary"))
  | .edge2 f => f.getLast? = some (PyVal.pstr (ps "co:Z:temporary"))

/-- Fixture: a merged segment of length 5. -/
def mergedFix : Seg := ⟨ps "mg", ps "AAAAA", [], true⟩

/-- Fixture: a junction segment of length 2, not yet annotated. -/
def firstFix : Seg := ⟨ps "fj", ps "AC", [], true⟩

/-- Fixture: a second junction segment of length 3, not yet annotated. -/
def lastFix : Seg := ⟨ps "lj", ps "ACG", [], true⟩

/-- Fixture: an empty graph in gfa1 mode. -/
def gfa1Fix : Gfa := ⟨ps "gfa1", [], []⟩

/-- Fixture: an empty graph in gfa2 mode. -/
def gfa2Fix : Gfa := ⟨ps "gfa2", [], []⟩

/-- Fixture: a junction segment annotated with one left entry and one
right entry, in the exact shape the annotation steps build. -/
def jnSegFix : Seg :=
  ⟨ps "jx", ps "AC",
    [(ps "jn", PyVal.pdict
      [(ps "L", PyVal.plist
          [PyVal.plist [PyVal.pstr (ps "m1"), PyVal.pstr (ps "+")]]),
       (ps "R", PyVal.plist
          [PyVal.plist [PyVal.pstr (ps "m2"), PyVal.pstr (ps "+")]])])],
    true⟩

/-- Fixture: a gfa1 graph holding only the annotated junction. -/
def gJnFix : Gfa := ⟨ps "gfa1", [jnSegFix], []⟩

/-- C1: the claim fails on the code.  On a junction with one left and one
right provenance entry (so the claim demands exactly one new edge and a
disconnect), the final pass raises `AttributeError` — the source iterates
`jndata["L"].items()`, but the provenance sides are lists, which have no
`items` method — before creating any edge or disconnecting anything: the
graph is returned unchanged together with the exception. -/
theorem claim_c1_remove_junctions_raises :
    remove_junctions gJnFix none = (gJnFix, some PyErr.attributeError)
    ∧ (remove_junctions gJnFix none).1.lines = [] := ⟨rfl, rfl⟩

/-- C3: the claim fails on the code.  For every graph and nonempty seed
path whose first endpoint resolves, the extender raises `AttributeError`
at its first step: line 21 calls `.invert()` on `end_type`, which is a
Python `str`, so no splicing, no extension and no boundary flags ever
happen. -/
theorem claim_c3_extend_raises (g : Gfa) (e0 : SegmentEnd)
    (rest : List SegmentEnd) (h : ∃ s, g.segmentRef e0.segment = .ok s) :
    extend_linear_path_to_junctions g (e0 :: rest)
      = .error PyErr.attributeError := by
  obtain ⟨s, hs⟩ := h
  simp [extend_linear_path_to_junctions, hs, pyStrInvertAttr]

/-- Fixture: a segment and graph for the extender. -/
def segBFix : Seg := ⟨ps "b", ps "ACGT", [], true⟩

/-- Fixture: a gfa1 graph holding only `segBFix`. -/
def gExtFix : Gfa := ⟨ps "gfa1", [segBFix], []⟩

/-- C3 witness: the extender evaluated on the seed path consisting of the
right end of segment `b`. -/
theorem claim_c3_extend_raises_witness :
    (∃ s, gExtFix.segmentRef (SegRef.sym (ps "b")) = .ok s)
    ∧ extend_linear_path_to_junctions gExtFix [⟨SegRef.sym (ps "b"), ps "R"⟩]
        = .error PyErr.attributeError :=
  ⟨⟨segBFix, rfl⟩,
    claim_c3_extend_raises gExtFix ⟨SegRef.sym (ps "b"), ps "R"⟩ []
      ⟨segBFix, rfl⟩⟩

/-- C10 counterexample: the claim is false in both directions at concrete
inputs — `encode` of a plain string raises `TypeError` (because
`validate_decoded` accepts only lists), and `encode` of the empty list
succeeds, returning the empty string. -/
theorem claim_c10_counterexample :
    encode (PyVal.pstr (ps "ab")) = .error PyErr.typeError
    ∧ encode (PyVal.plist []) = .ok (PyVal.pstr []) := ⟨rfl, rfl⟩

/-- C10 (amended): every nonempty list argument makes `encode` raise
`TypeError` (the element-kind checks test the enclosing list, so no
element ever passes), plain strings also raise `TypeError` because
`validate_decoded` accepts only lists, and the unique successful input is
the empty list, encoded as the empty string; only `unsafe_encode`, called
directly, returns plain strings unchanged without validation. -/
theorem claim_c10_amended (l : List PyVal) (s : PyStr) (h : l ≠ []) :
    encode (PyVal.plist l) = .error PyErr.typeError
    ∧ encode (PyVal.pstr s) = .error PyErr.typeError
    ∧ encode (PyVal.plist []) = .ok (PyVal.pstr [])
    ∧ unsafe_encode (PyVal.pstr s) = .ok (PyVal.pstr s) := by
  refine ⟨?_, rfl, rfl, rfl⟩
  cases l with
  | nil => exact absurd rfl h
  | cons e rest => rfl

/-- C10 witness: the amended claim evaluated on the singleton list of the
identifier `a` and the string `x`. -/
theorem claim_c10_amended_witness :
    ([PyVal.pstr (ps "a")] ≠ ([] : List PyVal))
    ∧ (encode (PyVal.plist [PyVal.pstr (ps "a")]) = .error PyErr.typeError
      ∧ encode (PyVal.pstr (ps "x")) = .error PyErr.typeError
      ∧ encode (PyVal.plist []) = .ok (PyVal.pstr [])
      ∧ unsafe_encode (PyVal.pstr (ps "x")) = .ok (PyVal.pstr (ps "x"))) :=
  ⟨List.cons_ne_nil _ _,
    claim_c10_amended [PyVal.pstr (ps "a")] (ps "x") (List.cons_ne_nil _ _)⟩

/-- C8: partially true, but the junction resolver diverges from it.  The
two merger steps do raise `AssertionError` (without adding an edge) for
any version other than gfa1/gfa2; the resolver's `AssertionError` branch,
however, is unreachable — on any annotated junction it raises
`AttributeError` from `jndata["L"].items()` before the version dispatch,
whatever the version value is. -/
theorem claim_c8_version_dispatch (v : PyStr)
    (h1 : v ≠ ps "gfa1") (h2 : v ≠ ps "gfa2") :
    (link_duplicated_first ⟨v, [], []⟩ mergedFix firstFix false none).2.2
        = some PyErr.assertionError
    ∧ (link_duplicated_first ⟨v, [], []⟩ mergedFix firstFix false none).1.lines = []
    ∧ (link_duplicated_last ⟨v, [], []⟩ mergedFix lastFix false none).2.2
        = some PyErr.assertionError
    ∧ (link_duplicated_last ⟨v, [], []⟩ mergedFix lastFix false none).1.lines = []
    ∧ remove_junctions ⟨v, [jnSegFix], []⟩ none
        = (⟨v, [jnSegFix], []⟩, some PyErr.attributeError) := by
  refine ⟨?_, ?_, ?_, ?_, rfl⟩ <;>
    simp [link_duplicated_first, link_duplicated_last, jn_annotate, Seg.get,
      Seg.set, tagsGet, tagsSet, pyTruthy, jnEmpty, PyVal.getItem, dictFind,
      PyVal.appendItem, PyVal.setItem, dictStore, Gfa.addLine, firstFix,
      lastFix, mergedFix, jnTagName, h1, h2]

/-- C8 witness: the dispatch evaluated at the unsupported version gfa3. -/
theorem claim_c8_version_dispatch_witness :
    ((ps "gfa3" : PyStr) ≠ ps "gfa1" ∧ (ps "gfa3" : PyStr) ≠ ps "gfa2")
    ∧ ((link_duplicated_first ⟨ps "gfa3", [], []⟩ mergedFix firstFix false
          none).2.2 = some PyErr.assertionError
      ∧ (link_duplicated_first ⟨ps "gfa3", [], []⟩ mergedFix firstFix false
          none).1.lines = []
      ∧ (link_duplicated_last ⟨ps "gfa3", [], []⟩ mergedFix lastFix false
          none).2.2 = some PyErr.assertionError
      ∧ (link_duplicated_last ⟨ps "gfa3", [], []⟩ mergedFix lastFix false
          none).1.lines = []
      ∧ remove_junctions ⟨ps "gfa3", [jnSegFix], []⟩ none
          = (⟨ps "gfa3", [jnSegFix], []⟩, some PyErr.attributeError)) :=
  ⟨⟨by decide, by decide⟩,
    claim_c8_version_dispatch (ps "gfa3") (by decide) (by decide)⟩

/-- C2 counterexample: with a junction of length 2 and a merged segment
of length 5 (gfa1 mode), the emitted temporary edge carries overlap `2M`
— the junction segment's length — not the claimed `5M` (the merged
segment's full length); and in gfa2 mode the last-boundary variant raises
`NameError` (unbound `last_name`) instead of emitting its edge. -/
theorem claim_c2_counterexample :
    (link_duplicated_first gfa1Fix mergedFix firstFix false none).1.lines
      = [GfaLine.link [PyVal.pstr (ps "fj"), PyVal.pstr (ps "+"),
          PyVal.pstr (ps "mg"), PyVal.pstr (ps "+"), PyVal.pstr (ps "2M"),
          PyVal.pstr (ps "co:Z:temporary")]]
    ∧ (link_duplicated_first gfa1Fix mergedFix firstFix false none).2.2 = none
    ∧ natStr mergedFix.sequence.length ++ ps "M" = ps "5M"
    ∧ (ps "2M" : PyStr) ≠ ps "5M"
    ∧ (link_duplicated_last gfa2Fix mergedFix lastFix false none).2.2
        = some PyErr.nameError := by
  refine ⟨rfl, rfl, rfl, ?_, rfl⟩
  decide

/-- C2 (amended): for every chain-merge boundary on a well-formed
provenance state, in gfa1 mode (both boundaries) and gfa2 mode (first
boundary) the merger emits exactly one dovetail edge, tagged
`co:Z:temporary`, whose overlap length equals the JUNCTION segment's full
length at that end (`len(first.sequence)` resp. `len(last.sequence)`),
not the merged segment's; in gfa2 mode the last-boundary variant instead
raises `NameError` (it references the unbound name `last_name`) and adds
no edge. -/
theorem claim_c2_amended (g : Gfa) (merged first last : Seg) (rev : Bool)
    (hf : jnWellFormed (first.get (ps "jn")))
    (hl : jnWellFormed (last.get (ps "jn"))) :
    ((g.version = ps "gfa1" ∨ g.version = ps "gfa2") →
      ∃ l2, (link_duplicated_first g merged first rev none).2.2 = none
        ∧ (link_duplicated_first g merged first rev none).1.lines
            = g.lines ++ [l2]
        ∧ lineIsTemporary l2
        ∧ lineOverlap l2
            = some (PyVal.pstr (natStr first.sequence.length ++ ps "M")))
    ∧ (g.version = ps "gfa1" →
      ∃ l2, (link_duplicated_last g merged last rev none).2.2 = none
        ∧ (link_duplicated_last g merged last rev none).1.lines
            = g.lines ++ [l2]
        ∧ lineIsTemporary l2
        ∧ lineOverlap l2
            = some (PyVal.pstr (natStr last.sequence.length ++ ps "M")))
    ∧ (g.version = ps "gfa2" →
      (link_duplicated_last g merged last rev none).2.2 = some PyErr.nameError
      ∧ (link_duplicated_last g merged last rev none).1.lines = g.lines) := by
  obtain ⟨f2, hf2, hfseq, hfname⟩ := jn_annotate_ok first (jnTagName none)
      (if rev then ps "L" else ps "R")
      (PyVal.plist [PyVal.pstr merged.name,
        PyVal.pstr (if rev then ps "-" else ps "+")])
      (by cases rev with
        | false => exact Or.inr rfl
        | true => exact Or.inl rfl) hf
  obtain ⟨l2s, hl2, hlseq, hlname⟩ := jn_annotate_ok last (jnTagName none)
      (if rev then ps "R" else ps "L")
      (PyVal.plist [PyVal.pstr merged.name,
        PyVal.pstr (if rev then ps "-" else ps "+")])
      (by cases rev with
        | false => exact Or.inl rfl
        | true => exact Or.inr rfl) hl
  refine ⟨?_, ?_, ?_⟩
  · rintro (hv | hv)
    · have hstep : link_duplicated_first g merged first rev none
          = (g.addLine (GfaLine.link
              [PyVal.pstr f2.name,
               PyVal.pstr (if rev then ps "-" else ps "+"),
               PyVal.pstr merged.name, PyVal.pstr (ps "+"),
               PyVal.pstr (natStr f2.sequence.length ++ ps "M"),
               PyVal.pstr (ps "co:Z:temporary")]), f2, none) := by
        simp only [link_duplicated_first]
        rw [hf2, hv]
        rfl
      refine ⟨GfaLine.link
          [PyVal.pstr f2.name,
           PyVal.pstr (if rev then ps "-" else ps "+"),
           PyVal.pstr merged.name, PyVal.pstr (ps "+"),
           PyVal.pstr (natStr f2.sequence.length ++ ps "M"),
           PyVal.pstr (ps "co:Z:temporary")], ?_, ?_, rfl, ?_⟩
      · rw [hstep]
      · rw [hstep]; rfl
      · rw [← hfseq]; rfl
    · have hstep : link_duplicated_first g merged first rev none
          = (g.addLine (GfaLine.edge2
              [PyVal.pstr (ps "*"),
               PyVal.pstr (f2.name ++ (if rev then ps "-" else ps "+")),
               PyVal.pstr (merged.name ++ ps "+"),
               PyVal.pstr (if rev then ps "0"
                 else intStr ((f2.sequence.length : Int) - 1)),
               PyVal.pstr (if rev then ps "1"
                 else natStr f2.sequence.length ++ ps "$"),
               PyVal.pint 0, PyVal.pstr (natStr f2.sequence.length),
               PyVal.pstr (natStr f2.sequence.length ++ ps "M"),
               PyVal.pstr (ps "co:Z:temporary")]), f2, none) := by
        simp only [link_duplicated_first]
        rw [hf2, hv]
        rfl
      refine ⟨GfaLine.edge2
          [PyVal.pstr (ps "*"),
           PyVal.pstr (f2.name ++ (if rev then ps "-" else ps "+")),
           PyVal.pstr (merged.name ++ ps "+"),
           PyVal.pstr (if rev then ps "0"
             else intStr ((f2.sequence.length : Int) - 1)),
           PyVal.pstr (if rev then ps "1"
             else natStr f2.sequence.length ++ ps "$"),
           PyVal.pint 0, PyVal.pstr (natStr f2.sequence.length),
           PyVal.pstr (natStr f2.sequence.length ++ ps "M"),
           PyVal.pstr (ps "co:Z:temporary")], ?_, ?_, rfl, ?_⟩
      · rw [hstep]
      · rw [hstep]; rfl
      · rw [← hfseq]; rfl
  · intro hv
    have hstep : link_duplicated_last g merged last rev none
        = (g.addLine (GfaLine.link
            [PyVal.pstr merged.name, PyVal.pstr (ps "+"),
             PyVal.pstr l2s.name,
             PyVal.pstr (if rev then ps "-" else ps "+"),
             PyVal.pstr (natStr l2s.sequence.length ++ ps "M"),
             PyVal.pstr (ps "co:Z:temporary")]), l2s, none) := by
      simp only [link_duplicated_last]
      rw [hl2, hv]
      rfl
    refine ⟨GfaLine.link
        [PyVal.pstr merged.name, PyVal.pstr (ps "+"),
         PyVal.pstr l2s.name,
         PyVal.pstr (if rev then ps "-" else ps "+"),
         PyVal.pstr (natStr l2s.sequence.length ++ ps "M"),
         PyVal.pstr (ps "co:Z:temporary")], ?_, ?_, rfl, ?_⟩
    · rw [hstep]
    · rw [hstep]; rfl
    · rw [← hlseq]; rfl
  · intro hv
    have hstep : link_duplicated_last g merged last rev none
        = (g, l2s, some PyErr.nameError) := by
      simp only [link_duplicated_last]
      rw [hl2, hv]
      rfl
    exact ⟨by rw [hstep], by rw [hstep]⟩

/-- C2 witness: the amended claim evaluated on the gfa1 fixture graph
with the unannotated junction of length 2. -/
theorem claim_c2_amended_witness :
    jnWellFormed (firstFix.get (ps "jn"))
    ∧ jnWellFormed (lastFix.get (ps "jn"))
    ∧ ∃ l2, (link_duplicated_first gfa1Fix mergedFix firstFix false
          none).2.2 = none
        ∧ (link_duplicated_first gfa1Fix mergedFix firstFix false
            none).1.lines = gfa1Fix.lines ++ [l2]
        ∧ lineIsTemporary l2
        ∧ lineOverlap l2
            = some (PyVal.pstr (natStr firstFix.sequence.length ++ ps "M")) :=
  ⟨Or.inl rfl, Or.inl rfl,
    (claim_c2_amended gfa1Fix mergedFix firstFix lastFix false
      (Or.inl rfl) (Or.inl rfl)).1 (Or.inl rfl)⟩
